import Mathlib

/-!
Verification of the graph-builder subsystem of the `graphnet` repository
(`src/graphnet/models/graph_builders.py`).

The builders operate on `torch_geometric.data.Data` objects; the fields the
builders read or write are the node-feature matrix `x`, the per-node batch
vector `batch`, the adjacency `edge_index` and (for the affinity builder)
`edge_weight`.  We embed these as lists over an arbitrary linear ordered
field `α` (idealising the float arithmetic of torch); node indices are
naturals and batch ids are integers.

`torch.exp` is passed to the affinity builder as an explicit function
parameter `ex : α → α`, so that every definition stays computable; theorems
about the actual builder instantiate `α := ℝ` and `ex := Real.exp`, or
quantify over any `ex` satisfying the relevant properties of `Real.exp`
(positivity, monotonicity), which only strengthens the statement.

The logger call made when a pre-existing `edge_index` is found is modelled
by the `warned` flag of `ForwardOut`.
-/

namespace GraphNet

/-- The fields of `torch_geometric.data.Data` used by the builders. -/
structure Data (α : Type) where
  x : List (List α)
  batch : List Int
  edge_index : Option (List (Nat × Nat))
  edge_weight : Option (List α)

/-- Result of a builder's `forward`: the (possibly updated) data object plus
whether the "pre-existing structure, will overwrite" warning was logged. -/
structure ForwardOut (α : Type) where
  warned : Bool
  data : Data α

variable {α : Type} [LinearOrderedField α]

/-- Column selection `row[columns]`, i.e. one row of `data.x[:, columns]`. -/
def selectCols (columns : List Nat) (r : List α) : List α :=
  columns.map (fun c => r.getD c 0)

/-- `data.x[:, columns]`: every row of the feature matrix restricted to the
chosen columns. -/
def xyzCoords (columns : List Nat) (d : Data α) : List (List α) :=
  d.x.map (selectCols columns)

/-- The coordinate row of point `i` (restricted to `columns`). -/
def coordRow (columns : List Nat) (d : Data α) (i : Nat) : List α :=
  (xyzCoords columns d).getD i []

/-- The batch id of point `i` (`data.batch[i]`). -/
def bId (d : Data α) (i : Nat) : Int :=
  d.batch.getD i 0

/-- Squared Euclidean distance between two coordinate rows. -/
def distSq (p q : List α) : α :=
  ((p.zip q).map (fun s => (s.1 - s.2) * (s.1 - s.2))).sum

/-- Modelled from the spec: `calculate_distance_matrix` lives in
`graphnet.models.utils`, which is not under `src/`.  The spec's
DistanceEvaluator contract is `matrix[i,j] = euclidean_distance(points[i][columns],
points[j][columns])`.  We represent the *square* of that distance: the
builders use the distance only through monotone comparisons (squaring it in
the affinity kernel, comparing it with a non-negative radius), for which the
square is an equivalent representation avoiding a non-computable square
root. -/
def distSqM (columns : List Nat) (d : Data α) (i j : Nat) : α :=
  distSq (coordRow columns d i) (coordRow columns d j)

/-- Insert `j` into a list, before the first element `a` with `le j a`. -/
def insertSorted (le : Nat → Nat → Bool) (j : Nat) : List Nat → List Nat
  | [] => [j]
  | a :: as => if le j a then j :: a :: as else a :: insertSorted le j as

/-- Insertion sort by the boolean relation `le`. -/
def sortBy (le : Nat → Nat → Bool) : List Nat → List Nat
  | [] => []
  | a :: as => insertSorted le a (sortBy le as)

/-- Comparator used to rank candidate neighbours of point `i`: strictly
smaller distance first, ties broken by ascending point index. -/
def knnLe (columns : List Nat) (d : Data α) (i : Nat) (j₁ j₂ : Nat) : Bool :=
  decide (distSqM columns d i j₁ < distSqM columns d i j₂ ∨
    (distSqM columns d i j₁ = distSqM columns d i j₂ ∧ j₁ ≤ j₂))

/-- Candidate neighbours of point `i`: every other point of the same batch. -/
def knnCandidates (d : Data α) (i : Nat) : List Nat :=
  (List.range d.x.length).filter (fun j => decide (j ≠ i ∧ bId d j = bId d i))

/-- Modelled from the spec: `torch_cluster.knn_graph` (reached through
`torch_geometric.nn.knn_graph`) is not under `src/`.  Per the spec's
KNNGraphBuilder contract: for every point `i`, the `k` same-batch points
other than `i` with smallest distance to `i`, ties broken by ascending
point index. -/
def knnNeighbours (k : Nat) (columns : List Nat) (d : Data α) (i : Nat) : List Nat :=
  (sortBy (knnLe columns d i) (knnCandidates d i)).take k

/-- Modelled from the spec: the edge list of `knn_graph` — one edge per
`(p, neighbour)` pair, oriented from the neighbour toward `p`, with no
self-loops (`loop=False`). -/
def knnEdges (k : Nat) (columns : List Nat) (d : Data α) : List (Nat × Nat) :=
  (List.range d.x.length).flatMap
    (fun i => (knnNeighbours k columns d i).map (fun j => (j, i)))

/-- Member variables of `KNNGraphBuilder` (the `device` argument only moves
tensors between devices and is not modelled). -/
structure KNNGraphBuilder where
  nbNearestNeighbours : Nat
  columns : List Nat

/-- `KNNGraphBuilder.__init__`: stores the parameters, defaulting `columns`
to `[0, 1, 2]` when `None`; no validation is performed. -/
def KNNGraphBuilder.init (nbNearestNeighbours : Nat) (columns : Option (List Nat)) :
    KNNGraphBuilder :=
  ⟨nbNearestNeighbours, columns.getD [0, 1, 2]⟩

/-- `KNNGraphBuilder.forward`: warn if an `edge_index` is already present,
then overwrite it with the k-NN graph of `data.x[:, columns]` under
`data.batch`. -/
def KNNGraphBuilder.forward (b : KNNGraphBuilder) (d : Data α) : ForwardOut α :=
  ⟨d.edge_index.isSome,
    { d with edge_index := some (knnEdges b.nbNearestNeighbours b.columns d) }⟩

/-- Number of points sharing the batch id of point `i`. -/
def batchSize (d : Data α) (i : Nat) : Nat :=
  ((List.range d.x.length).filter (fun j => decide (bId d j = bId d i))).length

/-- Number of edges of `es` whose target (second component) is `p`. -/
def targetDegree (es : List (Nat × Nat)) (p : Nat) : Nat :=
  (es.filter (fun e => decide (e.2 = p))).length

/-- Modelled from the spec: `torch_cluster.radius_graph` (reached through
`torch_geometric.nn.radius_graph`) is not under `src/`.  Per the spec's
RadialGraphBuilder contract: connect every same-batch pair `(i, j)`, `i ≠ j`,
with `distance(i,j) ≤ r` (stated here as `distSq ≤ r²`), no self-loops.
Each such unordered pair yields both orientations since both `i` and `j`
enumerate the outer loop. -/
def radiusEdges (r : α) (columns : List Nat) (d : Data α) : List (Nat × Nat) :=
  (List.range d.x.length).flatMap (fun i =>
    (((List.range d.x.length).filter (fun j =>
        decide (j ≠ i ∧ bId d j = bId d i ∧ distSqM columns d j i ≤ r * r))).map
      (fun j => (j, i))))

/-- Member variables of `RadialGraphBuilder` (the `device` argument is not
modelled). -/
structure RadialGraphBuilder (α : Type) where
  radius : α
  columns : List Nat

/-- `RadialGraphBuilder.__init__`: stores the parameters, defaulting
`columns` to `[0, 1, 2]` when `None`; no validation is performed. -/
def RadialGraphBuilder.init (radius : α) (columns : Option (List Nat)) :
    RadialGraphBuilder α :=
  ⟨radius, columns.getD [0, 1, 2]⟩

/-- `RadialGraphBuilder.forward`: warn if an `edge_index` is already present,
then overwrite it with the radius graph of `data.x[:, columns]` under
`data.batch`. -/
def RadialGraphBuilder.forward (b : RadialGraphBuilder α) (d : Data α) : ForwardOut α :=
  ⟨d.edge_index.isSome,
    { d with edge_index := some (radiusEdges b.radius b.columns d) }⟩

/-- Member variables of `EuclideanGraphBuilder`. -/
structure EuclideanGraphBuilder (α : Type) where
  sigma : α
  threshold : α
  columns : List Nat

/-- `EuclideanGraphBuilder.__init__`: stores `sigma`, `threshold` and
`columns` (defaulting to `[0, 1, 2]` when `None`).  Note that no check at
all is performed on `sigma` or `threshold`. -/
def EuclideanGraphBuilder.init (sigma threshold : α) (columns : Option (List Nat)) :
    EuclideanGraphBuilder α :=
  ⟨sigma, threshold, columns.getD [0, 1, 2]⟩

/-- `affinity_matrix[i,j] = exp(-0.5 * distance_matrix[i,j]**2 / sigma**2)`;
`distance_matrix**2` is exactly `distSqM`.  `ex` stands for `torch.exp`. -/
def affinityMatrix (ex : α → α) (b : EuclideanGraphBuilder α) (d : Data α)
    (i j : Nat) : α :=
  ex (-(1 / 2) * distSqM b.columns d i j / (b.sigma * b.sigma))

/-- `exp_row_sums[i] = torch.exp(affinity_matrix).sum(axis=1)[i]` — the sum
runs over the whole row, cross-batch entries included. -/
def expRowSums (ex : α → α) (b : EuclideanGraphBuilder α) (d : Data α) (i : Nat) : α :=
  ((List.range d.x.length).map (fun j => ex (affinityMatrix ex b d i j))).sum

/-- `weighted_adj_matrix[i,j] = exp(affinity_matrix[i,j]) / exp_row_sums[i]`. -/
def weightedAdjMatrix (ex : α → α) (b : EuclideanGraphBuilder α) (d : Data α)
    (i j : Nat) : α :=
  ex (affinityMatrix ex b d i j) / expRowSums ex b d i

/-- The condition of `torch.where`: `(weighted_adj_matrix > threshold) &
batch_mask`, where `batch_mask[i,j] = (batch[i] == batch[j])`. -/
def euclideanKeep (ex : α → α) (b : EuclideanGraphBuilder α) (d : Data α)
    (p : Nat × Nat) : Bool :=
  decide (b.threshold < weightedAdjMatrix ex b d p.1 p.2) &&
    decide (bId d p.1 = bId d p.2)

/-- All index pairs of an `n × n` matrix in the row-major order in which
`torch.where` reports them. -/
def pairsRC (n : Nat) : List (Nat × Nat) :=
  (List.range n).flatMap (fun i => (List.range n).map (fun j => (i, j)))

/-- `sources, targets = torch.where((weighted_adj_matrix > threshold) & batch_mask)`,
stacked into an edge list. -/
def euclideanEdges (ex : α → α) (b : EuclideanGraphBuilder α) (d : Data α) :
    List (Nat × Nat) :=
  (pairsRC d.x.length).filter (euclideanKeep ex b d)

/-- `edge_weights = weighted_adj_matrix[sources, targets]`. -/
def euclideanEdgeWeights (ex : α → α) (b : EuclideanGraphBuilder α) (d : Data α) :
    List α :=
  (euclideanEdges ex b d).map (fun p => weightedAdjMatrix ex b d p.1 p.2)

/-- `EuclideanGraphBuilder.forward`: warn if an `edge_index` is already
present, then set `edge_index` and `edge_weight` from the thresholded,
batch-masked, doubly-exponential row-normalised affinity matrix. -/
def EuclideanGraphBuilder.forward (b : EuclideanGraphBuilder α) (ex : α → α)
    (d : Data α) : ForwardOut α :=
  ⟨d.edge_index.isSome,
    { d with
        edge_index := some (euclideanEdges ex b d)
        edge_weight := some (euclideanEdgeWeights ex b d) }⟩

/-- Two points at distance `1` in one batch — concrete evaluation data. -/
def sampleQ : Data ℚ :=
  ⟨[[0, 0, 0], [1, 0, 0]], [0, 0], none, none⟩

/-- The spec's two-batch scenario: batch `0` is `{(0,0,0), (1,0,0), (0,1,0)}`
and batch `1` is `{(5,5,5), (5,5,6)}`. -/
def scenarioQ : Data ℚ :=
  ⟨[[0, 0, 0], [1, 0, 0], [0, 1, 0], [5, 5, 5], [5, 5, 6]], [0, 0, 0, 1, 1], none, none⟩

/-- A single point — concrete evaluation data (used at `α := ℝ`). -/
def onePointD (α : Type) [LinearOrderedField α] : Data α :=
  ⟨[[1, 2, 3]], [0], none, none⟩

/-- Two same-batch points at squared distance `2` — concrete evaluation data
(used at `α := ℝ`). -/
def twoPointD (α : Type) [LinearOrderedField α] : Data α :=
  ⟨[[0, 0, 0], [1, 1, 0]], [0, 0], none, none⟩

/-- Affinity builder with `sigma = 1`, `threshold = 3/5`. -/
def ebOne (α : Type) [LinearOrderedField α] : EuclideanGraphBuilder α :=
  ⟨1, 3 / 5, [0, 1, 2]⟩

/-- Affinity builder with `sigma = 10`, `threshold = 3/5`. -/
def ebTen (α : Type) [LinearOrderedField α] : EuclideanGraphBuilder α :=
  ⟨10, 3 / 5, [0, 1, 2]⟩

theorem mem_insertSorted (le : Nat → Nat → Bool) (j a : Nat) (l : List Nat) :
    a ∈ insertSorted le j l ↔ a = j ∨ a ∈ l := by
  induction l with
  | nil => simp [insertSorted]
  | cons b bs ih =>
    simp only [insertSorted]
    by_cases h : le j b = true
    · rw [if_pos h]
      simp
    · rw [if_neg h]
      simp only [List.mem_cons, ih]
      tauto

theorem length_insertSorted (le : Nat → Nat → Bool) (j : Nat) (l : List Nat) :
    (insertSorted le j l).length = l.length + 1 := by
  induction l with
  | nil => rfl
  | cons b bs ih =>
    simp only [insertSorted]
    by_cases h : le j b = true
    · rw [if_pos h]
      rfl
    · rw [if_neg h]
      simp [ih]

theorem mem_sortBy (le : Nat → Nat → Bool) (a : Nat) (l : List Nat) :
    a ∈ sortBy le l ↔ a ∈ l := by
  induction l with
  | nil => simp [sortBy]
  | cons b bs ih => simp [sortBy, mem_insertSorted, ih]

theorem length_sortBy (le : Nat → Nat → Bool) (l : List Nat) :
    (sortBy le l).length = l.length := by
  induction l with
  | nil => rfl
  | cons b bs ih => simp [sortBy, length_insertSorted, ih]

theorem mem_knnCandidates {d : Data α} {i j : Nat} :
    j ∈ knnCandidates d i ↔ j < d.x.length ∧ j ≠ i ∧ bId d j = bId d i := by
  simp [knnCandidates, List.mem_filter, List.mem_range]

theorem mem_knnNeighbours {k : Nat} {columns : List Nat} {d : Data α} {i j : Nat}
    (h : j ∈ knnNeighbours k columns d i) :
    j < d.x.length ∧ j ≠ i ∧ bId d j = bId d i := by
  have h2 := List.mem_of_mem_take h
  rw [mem_sortBy, mem_knnCandidates] at h2
  exact h2

theorem length_knnNeighbours (k : Nat) (columns : List Nat) (d : Data α) (i : Nat) :
    (knnNeighbours k columns d i).length = min k (knnCandidates d i).length := by
  simp [knnNeighbours, List.length_take, length_sortBy]

theorem mem_knnEdges {k : Nat} {columns : List Nat} {d : Data α} {e : Nat × Nat} :
    e ∈ knnEdges k columns d ↔
      e.2 < d.x.length ∧ e.1 ∈ knnNeighbours k columns d e.2 := by
  obtain ⟨a, b⟩ := e
  simp only [knnEdges, List.mem_flatMap, List.mem_range, List.mem_map, Prod.mk.injEq]
  constructor
  · rintro ⟨i, hi, j, hj, rfl, rfl⟩
    exact ⟨hi, hj⟩
  · rintro ⟨hb, ha⟩
    exact ⟨b, hb, a, ha, rfl, rfl⟩

theorem countP_flatMap {β γ : Type} (q : γ → Bool) (l : List β) (f : β → List γ) :
    (l.flatMap f).countP q = (l.map (fun b2 => (f b2).countP q)).sum := by
  induction l with
  | nil => rfl
  | cons a as ih => simp [List.flatMap_cons, List.countP_append, ih]

theorem sum_map_ite (n p L : Nat) :
    ((List.range n).map (fun i => if i = p then L else 0)).sum
      = if p < n then L else 0 := by
  induction n with
  | zero => simp
  | succ m ih =>
    rw [List.range_succ, List.map_append, List.sum_append, ih]
    rcases Nat.lt_trichotomy p m with h | h | h
    · have h1 : m ≠ p := by omega
      have h2 : p < m + 1 := by omega
      simp [h, h1, h2]
    · subst h
      have h1 : ¬p < p := by omega
      have h2 : p < p + 1 := by omega
      simp [h1, h2]
    · have h1 : ¬p < m := by omega
      have h2 : m ≠ p := by omega
      have h3 : ¬p < m + 1 := by omega
      simp [h1, h2, h3]

theorem targetDegree_knnEdges (k : Nat) (columns : List Nat) (d : Data α)
    {p : Nat} (hp : p < d.x.length) :
    targetDegree (knnEdges k columns d) p = (knnNeighbours k columns d p).length := by
  unfold targetDegree knnEdges
  rw [← List.countP_eq_length_filter, countP_flatMap]
  have hblock : ∀ i ∈ List.range d.x.length,
      ((knnNeighbours k columns d i).map (fun j => (j, i))).countP
          (fun e => decide (e.2 = p))
        = (fun i2 => if i2 = p then (knnNeighbours k columns d p).length else 0) i := by
    intro i _
    rw [List.countP_map]
    by_cases h : i = p
    · subst h
      simp [List.countP_true]
    · simp [h, List.countP_false]
  rw [List.map_congr_left hblock, sum_map_ite, if_pos hp]

theorem length_filter_ne {l : List Nat} (hn : l.Nodup) {i : Nat} (hi : i ∈ l) :
    (l.filter (fun j => decide (j ≠ i))).length + 1 = l.length := by
  induction l with
  | nil => cases hi
  | cons a as ih =>
    rcases List.nodup_cons.mp hn with ⟨hna, hnas⟩
    rw [List.filter_cons]
    rcases List.mem_cons.mp hi with rfl | hi2
    · rw [if_neg (by simp)]
      rw [List.filter_eq_self.mpr (fun j hj => by
        simp only [decide_eq_true_eq]
        exact fun hji => hna (hji ▸ hj))]
      rfl
    · have hai : a ≠ i := fun h => hna (h ▸ hi2)
      rw [if_pos (by simp [hai])]
      simp only [List.length_cons]
      rw [← ih hnas hi2]

theorem knnCandidates_length (d : Data α) {p : Nat} (hp : p < d.x.length) :
    (knnCandidates d p).length + 1 = batchSize d p := by
  have hfl : knnCandidates d p
      = ((List.range d.x.length).filter (fun j => decide (bId d j = bId d p))).filter
          (fun j => decide (j ≠ p)) := by
    unfold knnCandidates
    rw [List.filter_filter]
    exact List.filter_congr (fun j _ => Bool.decide_and _ _)
  have hnd : ((List.range d.x.length).filter
      (fun j => decide (bId d j = bId d p))).Nodup :=
    (List.nodup_range _).filter _
  have hmem : p ∈ (List.range d.x.length).filter
      (fun j => decide (bId d j = bId d p)) := by
    rw [List.mem_filter]
    exact ⟨List.mem_range.mpr hp, by simp⟩
  rw [hfl]
  exact length_filter_ne hnd hmem

theorem mem_radiusEdges {r : α} {columns : List Nat} {d : Data α} {e : Nat × Nat} :
    e ∈ radiusEdges r columns d ↔
      e.1 < d.x.length ∧ e.2 < d.x.length ∧ e.1 ≠ e.2 ∧ bId d e.1 = bId d e.2 ∧
        distSqM columns d e.1 e.2 ≤ r * r := by
  obtain ⟨a, b⟩ := e
  simp only [radiusEdges, List.mem_flatMap, List.mem_range, List.mem_map,
    List.mem_filter, decide_eq_true_eq, Prod.mk.injEq]
  constructor
  · rintro ⟨i, hi, j, ⟨⟨hjr, hj1, hj2, hj3⟩, rfl, rfl⟩⟩
    exact ⟨hjr, hi, hj1, hj2, hj3⟩
  · rintro ⟨ha, hb, h1, h2, h3⟩
    exact ⟨b, hb, a, ⟨⟨ha, h1, h2, h3⟩, rfl, rfl⟩⟩

theorem mem_pairsRC {n : Nat} {e : Nat × Nat} :
    e ∈ pairsRC n ↔ e.1 < n ∧ e.2 < n := by
  obtain ⟨a, b⟩ := e
  simp only [pairsRC, List.mem_flatMap, List.mem_range, List.mem_map, Prod.mk.injEq]
  constructor
  · rintro ⟨i, hi, j, hj, rfl, rfl⟩
    exact ⟨hi, hj⟩
  · rintro ⟨ha, hb⟩
    exact ⟨a, ha, b, hb, rfl, rfl⟩

theorem mem_euclideanEdges {ex : α → α} {b : EuclideanGraphBuilder α} {d : Data α}
    {e : Nat × Nat} :
    e ∈ euclideanEdges ex b d ↔
      e.1 < d.x.length ∧ e.2 < d.x.length ∧
        b.threshold < weightedAdjMatrix ex b d e.1 e.2 ∧ bId d e.1 = bId d e.2 := by
  simp only [euclideanEdges, List.mem_filter, mem_pairsRC, euclideanKeep,
    Bool.and_eq_true, decide_eq_true_eq]
  tauto

theorem expRowSums_pos (ex : α → α) (hex : ∀ x, 0 < ex x)
    (b : EuclideanGraphBuilder α) (d : Data α) (i : Nat) (hn : 0 < d.x.length) :
    0 < expRowSums ex b d i := by
  apply List.sum_pos
  · intro x hx
    obtain ⟨j, _, rfl⟩ := List.mem_map.mp hx
    exact hex _
  · apply List.ne_nil_of_length_pos
    simpa using hn

theorem weightedAdjMatrix_pos (ex : α → α) (hex : ∀ x, 0 < ex x)
    (b : EuclideanGraphBuilder α) (d : Data α) (i j : Nat) (hn : 0 < d.x.length) :
    0 < weightedAdjMatrix ex b d i j :=
  div_pos (hex _) (expRowSums_pos ex hex b d i hn)

theorem weightedAdjMatrix_le_one (ex : α → α) (hex : ∀ x, 0 < ex x)
    (b : EuclideanGraphBuilder α) (d : Data α) (i : Nat) {j : Nat}
    (hj : j < d.x.length) :
    weightedAdjMatrix ex b d i j ≤ 1 := by
  have hn : 0 < d.x.length := lt_of_le_of_lt (Nat.zero_le j) hj
  rw [weightedAdjMatrix, div_le_one₀ (expRowSums_pos ex hex b d i hn)]
  apply List.single_le_sum
  · intro x hx
    obtain ⟨j2, _, rfl⟩ := List.mem_map.mp hx
    exact le_of_lt (hex _)
  · exact List.mem_map.mpr ⟨j, List.mem_range.mpr hj, rfl⟩

/-- C1: For every input point set and each of the three builders
(KNNGraphBuilder, RadialGraphBuilder, EuclideanGraphBuilder), every edge
`(i, j)` of the returned edge list joins two points with the same batch id;
no cross-batch edge is ever produced. -/
theorem c1_no_cross_batch_edges {α : Type} [LinearOrderedField α]
    (kb : KNNGraphBuilder) (rb : RadialGraphBuilder α) (eb : EuclideanGraphBuilder α)
    (ex : α → α) (d : Data α) (e : Nat × Nat) :
    (e ∈ ((kb.forward d).data.edge_index.getD []) → bId d e.1 = bId d e.2) ∧
    (e ∈ ((rb.forward d).data.edge_index.getD []) → bId d e.1 = bId d e.2) ∧
    (e ∈ ((eb.forward ex d).data.edge_index.getD []) → bId d e.1 = bId d e.2) := by
  refine ⟨fun h => ?_, fun h => ?_, fun h => ?_⟩
  · exact (mem_knnNeighbours (mem_knnEdges.mp h).2).2.2
  · exact (mem_radiusEdges.mp h).2.2.2.1
  · exact (mem_euclideanEdges.mp h).2.2.2

/-- Witness for C1: concrete edges of each builder on two one-batch points. -/
theorem c1_no_cross_batch_edges_witness :
    bId sampleQ 1 = bId sampleQ 0 ∧ bId sampleQ 0 = bId sampleQ 1 ∧
      bId sampleQ 0 = bId sampleQ 0 :=
  ⟨(c1_no_cross_batch_edges ⟨1, [0, 1, 2]⟩ ⟨3 / 2, [0, 1, 2]⟩ ⟨1, 0, [0, 1, 2]⟩
      (fun _ => 1) sampleQ (1, 0)).1 (by decide),
   (c1_no_cross_batch_edges ⟨1, [0, 1, 2]⟩ ⟨3 / 2, [0, 1, 2]⟩ ⟨1, 0, [0, 1, 2]⟩
      (fun _ => 1) sampleQ (0, 1)).2.1
     (mem_radiusEdges.mpr ⟨by decide, by decide, by decide, rfl, by
        norm_num [distSqM, distSq, coordRow, xyzCoords, selectCols, sampleQ]⟩),
   (c1_no_cross_batch_edges ⟨1, [0, 1, 2]⟩ ⟨3 / 2, [0, 1, 2]⟩ ⟨1, 0, [0, 1, 2]⟩
      (fun _ => 1) sampleQ (0, 0)).2.2
     (mem_euclideanEdges.mpr ⟨by decide, by decide, by
        norm_num [weightedAdjMatrix, expRowSums, affinityMatrix, sampleQ,
          List.range_succ],
        rfl⟩)⟩

/-- C3: RadialGraphBuilder soundness and completeness.  Every produced edge
`(i, j)` satisfies `distance(i, j) ≤ radius`, and every same-batch pair
`(i, j)` with `i ≠ j` and `distance(i, j) ≤ radius` appears as an edge.
`distance ≤ radius` is expressed on squares (`distSqM ≤ radius · radius`),
equivalently for the non-negative radius assumed by `hr`. -/
theorem c3_radial_sound_complete {α : Type} [LinearOrderedField α]
    (b : RadialGraphBuilder α) (d : Data α) (i j : Nat) (hr : 0 ≤ b.radius)
    (hi : i < d.x.length) (hj : j < d.x.length) :
    ((i, j) ∈ ((b.forward d).data.edge_index.getD []) →
        distSqM b.columns d i j ≤ b.radius * b.radius) ∧
    (i ≠ j → bId d i = bId d j → distSqM b.columns d i j ≤ b.radius * b.radius →
        (i, j) ∈ ((b.forward d).data.edge_index.getD [])) := by
  constructor
  · intro h
    exact (mem_radiusEdges.mp h).2.2.2.2
  · intro h1 h2 h3
    exact mem_radiusEdges.mpr ⟨hi, hj, h1, h2, h3⟩

/-- Witness for C3: the pair at distance 1 is an edge for radius 3/2. -/
theorem c3_radial_sound_complete_witness :
    distSqM [0, 1, 2] sampleQ 0 1 ≤ (3 / 2 : ℚ) * (3 / 2) ∧
      (0, 1) ∈ (((RadialGraphBuilder.mk (3 / 2 : ℚ) [0, 1, 2]).forward
          sampleQ).data.edge_index.getD []) := by
  have hmem : (0, 1) ∈ (((RadialGraphBuilder.mk (3 / 2 : ℚ) [0, 1, 2]).forward
      sampleQ).data.edge_index.getD []) :=
    (c3_radial_sound_complete ⟨3 / 2, [0, 1, 2]⟩ sampleQ 0 1 (by norm_num)
        (by decide) (by decide)).2 (by decide) rfl
      (by norm_num [distSqM, distSq, coordRow, xyzCoords, selectCols, sampleQ])
  exact ⟨(c3_radial_sound_complete ⟨3 / 2, [0, 1, 2]⟩ sampleQ 0 1 (by norm_num)
      (by decide) (by decide)).1 hmem, hmem⟩

/-- C4: For every point `p` of the input, the KNN builder produces exactly
`min(k, n-1)` edges with target `p`, where `n` is the size of `p`'s batch;
in particular a point alone in its batch receives zero edges. -/
theorem c4_knn_degree {α : Type} [LinearOrderedField α] (b : KNNGraphBuilder)
    (d : Data α) (p : Nat) (hp : p < d.x.length) :
    targetDegree ((b.forward d).data.edge_index.getD []) p
        = min b.nbNearestNeighbours (batchSize d p - 1) ∧
      (batchSize d p = 1 →
        targetDegree ((b.forward d).data.edge_index.getD []) p = 0) := by
  have hdeg : targetDegree ((b.forward d).data.edge_index.getD []) p
      = min b.nbNearestNeighbours (batchSize d p - 1) := by
    have h3 := knnCandidates_length d hp
    have h4 : (knnCandidates d p).length = batchSize d p - 1 := by omega
    show targetDegree (knnEdges b.nbNearestNeighbours b.columns d) p = _
    rw [targetDegree_knnEdges b.nbNearestNeighbours b.columns d hp,
      length_knnNeighbours, h4]
  refine ⟨hdeg, fun h1 => ?_⟩
  rw [hdeg, h1]
  simp

/-- Witness for C4: the first of two one-batch points has degree
`min 1 (2 - 1) = 1` in the `k = 1` graph. -/
theorem c4_knn_degree_witness :
    targetDegree (((KNNGraphBuilder.mk 1 [0, 1, 2]).forward
          sampleQ).data.edge_index.getD []) 0
        = min 1 (batchSize sampleQ 0 - 1) ∧
      (batchSize sampleQ 0 = 1 →
        targetDegree (((KNNGraphBuilder.mk 1 [0, 1, 2]).forward
          sampleQ).data.edge_index.getD []) 0 = 0) :=
  c4_knn_degree ⟨1, [0, 1, 2]⟩ sampleQ 0 (by decide)

/-- C6: When the input already carries an adjacency (`edge_index` is not
`None`), every builder logs the non-fatal overwrite warning (and logs none
otherwise), and the pre-existing adjacency is superseded, never merged: the
output `edge_index` is the freshly computed edge list and does not depend on
the pre-existing one.  All three `forward`s are total functions — the call
never fails on this condition. -/
theorem c6_overwrite_with_warning {α : Type} [LinearOrderedField α]
    (kb : KNNGraphBuilder) (rb : RadialGraphBuilder α) (eb : EuclideanGraphBuilder α)
    (ex : α → α) (d : Data α) (eo : List (Nat × Nat)) :
    ((kb.forward { d with edge_index := some eo }).warned = true ∧
      (kb.forward d).warned = d.edge_index.isSome ∧
      (kb.forward { d with edge_index := some eo }).data.edge_index
        = some (knnEdges kb.nbNearestNeighbours kb.columns d) ∧
      (kb.forward { d with edge_index := some eo }).data.edge_index
        = (kb.forward { d with edge_index := none }).data.edge_index) ∧
    ((rb.forward { d with edge_index := some eo }).warned = true ∧
      (rb.forward d).warned = d.edge_index.isSome ∧
      (rb.forward { d with edge_index := some eo }).data.edge_index
        = some (radiusEdges rb.radius rb.columns d) ∧
      (rb.forward { d with edge_index := some eo }).data.edge_index
        = (rb.forward { d with edge_index := none }).data.edge_index) ∧
    ((eb.forward ex { d with edge_index := some eo }).warned = true ∧
      (eb.forward ex d).warned = d.edge_index.isSome ∧
      (eb.forward ex { d with edge_index := some eo }).data.edge_index
        = some (euclideanEdges ex eb d) ∧
      (eb.forward ex { d with edge_index := some eo }).data.edge_index
        = (eb.forward ex { d with edge_index := none }).data.edge_index) :=
  ⟨⟨rfl, rfl, rfl, rfl⟩, ⟨rfl, rfl, rfl, rfl⟩, ⟨rfl, rfl, rfl, rfl⟩⟩

/-- C7: Every edge weight produced by the affinity builder lies in `(0, 1]`,
for any exponential-like map `ex` that is everywhere positive (as `Real.exp`
is). -/
theorem c7_weights_in_unit_interval {α : Type} [LinearOrderedField α]
    (ex : α → α) (hex : ∀ x, 0 < ex x) (b : EuclideanGraphBuilder α) (d : Data α)
    (w : α) (hw : w ∈ ((b.forward ex d).data.edge_weight.getD [])) :
    0 < w ∧ w ≤ 1 := by
  have hw2 : w ∈ euclideanEdgeWeights ex b d := hw
  obtain ⟨p, hp, rfl⟩ := List.mem_map.mp hw2
  have hmem := mem_euclideanEdges.mp hp
  exact ⟨weightedAdjMatrix_pos ex hex b d p.1 p.2
      (lt_of_le_of_lt (Nat.zero_le _) hmem.1),
    weightedAdjMatrix_le_one ex hex b d p.1 hmem.2.1⟩

/-- Witness for C7: the weight 1/2 produced on two one-batch points. -/
theorem c7_weights_in_unit_interval_witness : 0 < (1 / 2 : ℚ) ∧ (1 / 2 : ℚ) ≤ 1 :=
  c7_weights_in_unit_interval (fun _ => 1) (fun _ => one_pos)
    ⟨1, 1 / 3, [0, 1, 2]⟩ sampleQ (1 / 2)
    (List.mem_map.mpr ⟨(0, 0),
      mem_euclideanEdges.mpr ⟨by decide, by decide, by
        norm_num [weightedAdjMatrix, expRowSums, affinityMatrix, sampleQ,
          List.range_succ],
        rfl⟩,
      by norm_num [weightedAdjMatrix, expRowSums, affinityMatrix, sampleQ,
        List.range_succ]⟩)

/-- C9: The affinity builder's batch mask is true on the diagonal: any point
`i` with `W[i,i] > threshold` receives the self-loop `(i, i)`, and with
`threshold = 0` (and a positive `ex`, as `Real.exp` is) every point receives
a self-loop — unlike the KNN and radial builders, which never produce
self-loops. -/
theorem c9_affinity_self_loops {α : Type} [LinearOrderedField α]
    (ex : α → α) (hex : ∀ x, 0 < ex x) (eb : EuclideanGraphBuilder α)
    (kb : KNNGraphBuilder) (rb : RadialGraphBuilder α) (d : Data α)
    (i : Nat) (hi : i < d.x.length) (e : Nat × Nat) :
    (eb.threshold < weightedAdjMatrix ex eb d i i →
        (i, i) ∈ ((eb.forward ex d).data.edge_index.getD [])) ∧
    (eb.threshold = 0 → (i, i) ∈ ((eb.forward ex d).data.edge_index.getD [])) ∧
    (e ∈ ((kb.forward d).data.edge_index.getD []) → e.1 ≠ e.2) ∧
    (e ∈ ((rb.forward d).data.edge_index.getD []) → e.1 ≠ e.2) := by
  refine ⟨fun h => mem_euclideanEdges.mpr ⟨hi, hi, h, rfl⟩, fun h => ?_,
    fun h => (mem_knnNeighbours (mem_knnEdges.mp h).2).2.1,
    fun h => (mem_radiusEdges.mp h).2.2.1⟩
  refine mem_euclideanEdges.mpr ⟨hi, hi, ?_, rfl⟩
  rw [h]
  exact weightedAdjMatrix_pos ex hex eb d i i (lt_of_le_of_lt (Nat.zero_le _) hi)

/-- Witness for C9: point 0 gets a self-loop at threshold 0; the edge
`(1, 0)` of the other builders is no self-loop. -/
theorem c9_affinity_self_loops_witness :
    (0, 0) ∈ (((EuclideanGraphBuilder.mk (1 : ℚ) 0 [0, 1, 2]).forward
        (fun _ => 1) sampleQ).data.edge_index.getD []) ∧ (1 : Nat) ≠ 0 ∧ (1 : Nat) ≠ 0 :=
  ⟨(c9_affinity_self_loops (fun _ => 1) (fun _ => one_pos) ⟨1, 0, [0, 1, 2]⟩
      ⟨1, [0, 1, 2]⟩ ⟨3 / 2, [0, 1, 2]⟩ sampleQ 0 (by decide) (1, 0)).2.1 rfl,
   (c9_affinity_self_loops (fun _ => 1) (fun _ => one_pos) ⟨1, 0, [0, 1, 2]⟩
      ⟨1, [0, 1, 2]⟩ ⟨3 / 2, [0, 1, 2]⟩ sampleQ 0 (by decide) (1, 0)).2.2.1
     (by decide),
   (c9_affinity_self_loops (fun _ => 1) (fun _ => one_pos) ⟨1, 0, [0, 1, 2]⟩
      ⟨1, [0, 1, 2]⟩ ⟨3 / 2, [0, 1, 2]⟩ sampleQ 0 (by decide) (1, 0)).2.2.2
     (mem_radiusEdges.mpr ⟨by decide, by decide, by decide, rfl, by
        norm_num [distSqM, distSq, coordRow, xyzCoords, selectCols, sampleQ]⟩)⟩

/-- C10: Each builder's `forward` returns the input data with only
`edge_index` changed (and, for the affinity builder, `edge_weight`); the
node features `x`, the `batch` vector, and — for the KNN and radial
builders — the `edge_weight` field are left unchanged. -/
theorem c10_frame_conditions {α : Type} [LinearOrderedField α]
    (kb : KNNGraphBuilder) (rb : RadialGraphBuilder α) (eb : EuclideanGraphBuilder α)
    (ex : α → α) (d : Data α) :
    ((kb.forward d).data.x = d.x ∧ (kb.forward d).data.batch = d.batch ∧
      (kb.forward d).data.edge_weight = d.edge_weight) ∧
    ((rb.forward d).data.x = d.x ∧ (rb.forward d).data.batch = d.batch ∧
      (rb.forward d).data.edge_weight = d.edge_weight) ∧
    ((eb.forward ex d).data.x = d.x ∧ (eb.forward ex d).data.batch = d.batch) :=
  ⟨⟨rfl, rfl, rfl⟩, ⟨rfl, rfl, rfl⟩, ⟨rfl, rfl⟩⟩

/-- C2: The affinity builder computes the Gaussian affinity
`A[i,j] = exp(-0.5 * D[i,j]² / sigma²)` from the pairwise distance on the
selected columns, the doubly-exponential row normalisation
`W[i,j] = exp(A[i,j]) / Σ_j exp(A[i,j])` (the row sum running over the whole
row), and the weight stored for the `p`-th kept edge `(i, j)` is exactly
`W[i,j]`. -/
theorem c2_affinity_weight_formula {α : Type} [LinearOrderedField α]
    (ex : α → α) (b : EuclideanGraphBuilder α) (d : Data α) (p i j : Nat)
    (hp : p < (((b.forward ex d).data.edge_index.getD [])).length)
    (he : ((b.forward ex d).data.edge_index.getD []).getD p (0, 0) = (i, j)) :
    ((b.forward ex d).data.edge_weight.getD []).length
        = ((b.forward ex d).data.edge_index.getD []).length ∧
      ((b.forward ex d).data.edge_weight.getD []).getD p 0
        = ex (affinityMatrix ex b d i j) / expRowSums ex b d i ∧
      affinityMatrix ex b d i j
        = ex (-(1 / 2) * distSqM b.columns d i j / (b.sigma * b.sigma)) ∧
      expRowSums ex b d i
        = ((List.range d.x.length).map (fun j2 => ex (affinityMatrix ex b d i j2))).sum := by
  refine ⟨List.length_map _ _, ?_, rfl, rfl⟩
  have hp2 : p < (euclideanEdges ex b d).length := hp
  have hw : ((b.forward ex d).data.edge_weight.getD [])
      = (euclideanEdges ex b d).map
        (fun q => weightedAdjMatrix ex b d q.1 q.2) := rfl
  rw [hw, List.getD_eq_getElem _ _ (by simpa using hp2), List.getElem_map]
  have he2 : (euclideanEdges ex b d)[p] = (i, j) := by
    rw [← List.getD_eq_getElem _ ((0 : Nat), (0 : Nat)) hp2]
    exact he
  rw [he2]
  rfl

/-- Witness for C2: the single self-loop edge of a one-point input. -/
theorem c2_affinity_weight_formula_witness :
    (((EuclideanGraphBuilder.mk (1 : ℚ) 0 [0, 1, 2]).forward (fun _ => 1)
          (onePointD ℚ)).data.edge_weight.getD []).length
        = (((EuclideanGraphBuilder.mk (1 : ℚ) 0 [0, 1, 2]).forward (fun _ => 1)
          (onePointD ℚ)).data.edge_index.getD []).length ∧
      (((EuclideanGraphBuilder.mk (1 : ℚ) 0 [0, 1, 2]).forward (fun _ => 1)
          (onePointD ℚ)).data.edge_weight.getD []).getD 0 0
        = (fun _ => (1 : ℚ)) (affinityMatrix (fun _ => 1) ⟨1, 0, [0, 1, 2]⟩
            (onePointD ℚ) 0 0)
          / expRowSums (fun _ => 1) ⟨1, 0, [0, 1, 2]⟩ (onePointD ℚ) 0 ∧
      affinityMatrix (fun _ => (1 : ℚ)) ⟨1, 0, [0, 1, 2]⟩ (onePointD ℚ) 0 0
        = (fun _ => (1 : ℚ)) (-(1 / 2) * distSqM [0, 1, 2] (onePointD ℚ) 0 0
            / ((1 : ℚ) * 1)) ∧
      expRowSums (fun _ => (1 : ℚ)) ⟨1, 0, [0, 1, 2]⟩ (onePointD ℚ) 0
        = ((List.range (onePointD ℚ).x.length).map
            (fun j2 => (fun _ => (1 : ℚ)) (affinityMatrix (fun _ => 1)
              ⟨1, 0, [0, 1, 2]⟩ (onePointD ℚ) 0 j2))).sum := by
  have hE : euclideanEdges (fun _ => (1 : ℚ)) ⟨1, 0, [0, 1, 2]⟩ (onePointD ℚ)
      = [(0, 0)] := by
    have h1 : pairsRC (onePointD ℚ).x.length = [(0, 0)] := by decide
    have hk : euclideanKeep (fun _ => (1 : ℚ)) ⟨1, 0, [0, 1, 2]⟩ (onePointD ℚ)
        (0, 0) = true := by
      have hW : (0 : ℚ) < weightedAdjMatrix (fun _ => 1) ⟨1, 0, [0, 1, 2]⟩
          (onePointD ℚ) 0 0 := by
        norm_num [weightedAdjMatrix, expRowSums, affinityMatrix, onePointD,
          List.range_succ]
      unfold euclideanKeep
      rw [decide_eq_true hW]
      rfl
    unfold euclideanEdges
    rw [h1, List.filter_cons, if_pos hk]
    rfl
  refine c2_affinity_weight_formula (fun _ => 1) ⟨1, 0, [0, 1, 2]⟩ (onePointD ℚ)
    0 0 0 ?_ ?_
  · show 0 < (euclideanEdges (fun _ => (1 : ℚ)) ⟨1, 0, [0, 1, 2]⟩
        (onePointD ℚ)).length
    rw [hE]
    decide
  · show (euclideanEdges (fun _ => (1 : ℚ)) ⟨1, 0, [0, 1, 2]⟩
        (onePointD ℚ)).getD 0 (0, 0) = (0, 0)
    rw [hE]
    rfl

/-- C5 (counterexample): with `sigma = -1 ≤ 0` the affinity builder does not
fail with InvalidInput — neither `__init__` nor `forward` checks `sigma` —
and edges are computed normally: on a one-point input it returns the
self-loop edge `(0, 0)` with weight `1`. -/
theorem c5_counterexample_sigma_not_validated :
    ((EuclideanGraphBuilder.mk (-1 : ℝ) 0 [0, 1, 2]).forward Real.exp
        (onePointD ℝ)).data.edge_index = some [(0, 0)] ∧
      ((EuclideanGraphBuilder.mk (-1 : ℝ) 0 [0, 1, 2]).forward Real.exp
        (onePointD ℝ)).data.edge_weight = some [1] := by
  have hW : weightedAdjMatrix Real.exp ⟨-1, 0, [0, 1, 2]⟩ (onePointD ℝ) 0 0 = 1 := by
    unfold weightedAdjMatrix expRowSums
    have h1 : List.range (onePointD ℝ).x.length = [0] := by decide
    rw [h1, List.map_cons, List.map_nil, List.sum_cons, List.sum_nil, add_zero,
      div_self (Real.exp_ne_zero _)]
  have hk : euclideanKeep Real.exp ⟨-1, 0, [0, 1, 2]⟩ (onePointD ℝ) (0, 0) = true := by
    unfold euclideanKeep
    rw [decide_eq_true (show ((⟨-1, 0, [0, 1, 2]⟩ :
        EuclideanGraphBuilder ℝ)).threshold < weightedAdjMatrix Real.exp
        ⟨-1, 0, [0, 1, 2]⟩ (onePointD ℝ) 0 0 by rw [hW]; norm_num)]
    rfl
  have hE : euclideanEdges Real.exp (⟨-1, 0, [0, 1, 2]⟩ : EuclideanGraphBuilder ℝ)
      (onePointD ℝ) = [(0, 0)] := by
    have h1 : pairsRC (onePointD ℝ).x.length = [(0, 0)] := by decide
    unfold euclideanEdges
    rw [h1, List.filter_cons, if_pos hk]
    rfl
  constructor
  · show some (euclideanEdges Real.exp (⟨-1, 0, [0, 1, 2]⟩ :
        EuclideanGraphBuilder ℝ) (onePointD ℝ)) = some [(0, 0)]
    rw [hE]
  · show some (euclideanEdgeWeights Real.exp (⟨-1, 0, [0, 1, 2]⟩ :
        EuclideanGraphBuilder ℝ) (onePointD ℝ)) = some [1]
    unfold euclideanEdgeWeights
    rw [hE, List.map_cons, List.map_nil, hW]

/-- C5 (amended): the affinity builder performs no validation of `sigma` at
all: no error is raised for `sigma ≤ 0`; since `sigma` enters the
computation only as `sigma * sigma`, the builder with `sigma = -s` produces
exactly the output (warning flag, edges and weights) of the builder with
`sigma = s`. -/
theorem c5_amended_no_sigma_validation {α : Type} [LinearOrderedField α]
    (sigma threshold : α) (columns : List Nat) (ex : α → α) (d : Data α) :
    (EuclideanGraphBuilder.mk (-sigma) threshold columns).forward ex d
      = (EuclideanGraphBuilder.mk sigma threshold columns).forward ex d := by
  have hkeep : euclideanKeep ex (⟨-sigma, threshold, columns⟩ :
        EuclideanGraphBuilder α) d
      = euclideanKeep ex ⟨sigma, threshold, columns⟩ d := by
    funext p
    simp only [euclideanKeep, weightedAdjMatrix, expRowSums, affinityMatrix,
      neg_mul_neg]
  simp only [EuclideanGraphBuilder.forward, euclideanEdges, euclideanEdgeWeights,
    weightedAdjMatrix, expRowSums, affinityMatrix, neg_mul_neg, hkeep]

theorem three_exp_exp_neg_one_lt_two_exp_one :
    3 * Real.exp (Real.exp (-1)) < 2 * Real.exp 1 := by
  have h0 : (2 : ℝ) < Real.exp 1 := lt_trans (by norm_num) Real.exp_one_gt_d9
  have h1 : Real.exp (-1) < 1 / 2 := by
    rw [Real.exp_neg]
    rw [show (1 : ℝ) / 2 = 2⁻¹ by norm_num]
    exact inv_strictAnti₀ (by norm_num) h0
  have h2 : (3 : ℝ) / 2 ≤ Real.exp (1 / 2) := by
    have := Real.add_one_le_exp ((1 : ℝ) / 2)
    linarith
  have h3 : Real.exp (1 / 2) < Real.exp (1 - Real.exp (-1)) :=
    Real.exp_lt_exp.mpr (by linarith)
  have h4 : Real.exp 1 = Real.exp (Real.exp (-1)) * Real.exp (1 - Real.exp (-1)) := by
    rw [← Real.exp_add]
    ring_nf
  have h5 : (3 : ℝ) / 2 < Real.exp (1 - Real.exp (-1)) := lt_of_le_of_lt h2 h3
  nlinarith [Real.exp_pos (Real.exp (-1))]

theorem exp_exp_neg_one_lt_exp_one :
    Real.exp (Real.exp (-1)) < Real.exp 1 :=
  Real.exp_lt_exp.mpr (Real.exp_lt_one_iff.mpr (by norm_num))

theorem two_exp_one_le_three_exp_exp_neg_hundredth :
    2 * Real.exp 1 ≤ 3 * Real.exp (Real.exp (-(1 / 100))) := by
  have h1 : 1 - 1 / 100 ≤ Real.exp (-(1 / 100)) := by
    have := Real.add_one_le_exp (-(1 : ℝ) / 100)
    have he : Real.exp (-(1 : ℝ) / 100) = Real.exp (-(1 / 100)) := by norm_num
    linarith [he ▸ this]
  have h2 : 1 - Real.exp (-(1 / 100)) ≤ (1 : ℝ) / 100 := by linarith
  have h3 : Real.exp (1 / 100) * Real.exp (-(1 / 100)) = 1 := by
    rw [← Real.exp_add]
    norm_num
  have h4 : Real.exp ((1 : ℝ) / 100) ≤ 100 / 99 := by
    nlinarith [Real.exp_pos ((1 : ℝ) / 100)]
  have h5 : Real.exp (1 - Real.exp (-(1 / 100))) ≤ Real.exp (1 / 100) :=
    Real.exp_le_exp.mpr h2
  have h6 : Real.exp 1
      = Real.exp (Real.exp (-(1 / 100))) * Real.exp (1 - Real.exp (-(1 / 100))) := by
    rw [← Real.exp_add]
    ring_nf
  nlinarith [Real.exp_pos (Real.exp (-(1 / 100))), Real.exp_pos (1 - Real.exp (-(1 / 100)))]

theorem exp_exp_neg_hundredth_lt_exp_one :
    Real.exp (Real.exp (-(1 / 100))) < Real.exp 1 :=
  Real.exp_lt_exp.mpr (Real.exp_lt_one_iff.mpr (by norm_num))

/-- C8 (counterexample): monotonicity of the surviving-edge count in `sigma`
fails.  On two same-batch points at squared distance 2, with the column
subset `[0,1,2]` and threshold `3/5` held fixed, `sigma = 1` produces the
two diagonal edges while `sigma = 10` produces no edge at all: increasing
`sigma` from 1 to 10 strictly decreases the edge count. -/
theorem c8_counterexample_sigma_monotonicity_fails :
    ((((ebTen ℝ).forward Real.exp (twoPointD ℝ)).data.edge_index.getD []).length)
      < ((((ebOne ℝ).forward Real.exp (twoPointD ℝ)).data.edge_index.getD []).length) := by
  have hd00 : distSqM [0, 1, 2] (twoPointD ℝ) 0 0 = 0 := by
    norm_num [distSqM, distSq, coordRow, xyzCoords, selectCols, twoPointD]
  have hd01 : distSqM [0, 1, 2] (twoPointD ℝ) 0 1 = 2 := by
    norm_num [distSqM, distSq, coordRow, xyzCoords, selectCols, twoPointD]
  have hd10 : distSqM [0, 1, 2] (twoPointD ℝ) 1 0 = 2 := by
    norm_num [distSqM, distSq, coordRow, xyzCoords, selectCols, twoPointD]
  have hd11 : distSqM [0, 1, 2] (twoPointD ℝ) 1 1 = 0 := by
    norm_num [distSqM, distSq, coordRow, xyzCoords, selectCols, twoPointD]
  have ha100 : affinityMatrix Real.exp (ebOne ℝ) (twoPointD ℝ) 0 0 = Real.exp 0 := by
    show Real.exp (-(1 / 2) * distSqM [0, 1, 2] (twoPointD ℝ) 0 0 / ((1 : ℝ) * 1))
      = Real.exp 0
    rw [hd00]
    norm_num
  have ha101 : affinityMatrix Real.exp (ebOne ℝ) (twoPointD ℝ) 0 1
      = Real.exp (-1) := by
    show Real.exp (-(1 / 2) * distSqM [0, 1, 2] (twoPointD ℝ) 0 1 / ((1 : ℝ) * 1))
      = Real.exp (-1)
    rw [hd01]
    norm_num
  have ha110 : affinityMatrix Real.exp (ebOne ℝ) (twoPointD ℝ) 1 0
      = Real.exp (-1) := by
    show Real.exp (-(1 / 2) * distSqM [0, 1, 2] (twoPointD ℝ) 1 0 / ((1 : ℝ) * 1))
      = Real.exp (-1)
    rw [hd10]
    norm_num
  have ha111 : affinityMatrix Real.exp (ebOne ℝ) (twoPointD ℝ) 1 1 = Real.exp 0 := by
    show Real.exp (-(1 / 2) * distSqM [0, 1, 2] (twoPointD ℝ) 1 1 / ((1 : ℝ) * 1))
      = Real.exp 0
    rw [hd11]
    norm_num
  have hb100 : affinityMatrix Real.exp (ebTen ℝ) (twoPointD ℝ) 0 0 = Real.exp 0 := by
    show Real.exp (-(1 / 2) * distSqM [0, 1, 2] (twoPointD ℝ) 0 0 / ((10 : ℝ) * 10))
      = Real.exp 0
    rw [hd00]
    norm_num
  have hb101 : affinityMatrix Real.exp (ebTen ℝ) (twoPointD ℝ) 0 1
      = Real.exp (-(1 / 100)) := by
    show Real.exp (-(1 / 2) * distSqM [0, 1, 2] (twoPointD ℝ) 0 1 / ((10 : ℝ) * 10))
      = Real.exp (-(1 / 100))
    rw [hd01]
    norm_num
  have hb110 : affinityMatrix Real.exp (ebTen ℝ) (twoPointD ℝ) 1 0
      = Real.exp (-(1 / 100)) := by
    show Real.exp (-(1 / 2) * distSqM [0, 1, 2] (twoPointD ℝ) 1 0 / ((10 : ℝ) * 10))
      = Real.exp (-(1 / 100))
    rw [hd10]
    norm_num
  have hb111 : affinityMatrix Real.exp (ebTen ℝ) (twoPointD ℝ) 1 1 = Real.exp 0 := by
    show Real.exp (-(1 / 2) * distSqM [0, 1, 2] (twoPointD ℝ) 1 1 / ((10 : ℝ) * 10))
      = Real.exp 0
    rw [hd11]
    norm_num
  have hrange2 : List.range (twoPointD ℝ).x.length = [0, 1] := by decide
  have hS10 : expRowSums Real.exp (ebOne ℝ) (twoPointD ℝ) 0
      = Real.exp (Real.exp 0) + Real.exp (Real.exp (-1)) := by
    unfold expRowSums
    rw [hrange2, List.map_cons, List.map_cons, List.map_nil, List.sum_cons,
      List.sum_cons, List.sum_nil, add_zero, ha100, ha101]
  have hS11 : expRowSums Real.exp (ebOne ℝ) (twoPointD ℝ) 1
      = Real.exp (Real.exp (-1)) + Real.exp (Real.exp 0) := by
    unfold expRowSums
    rw [hrange2, List.map_cons, List.map_cons, List.map_nil, List.sum_cons,
      List.sum_cons, List.sum_nil, add_zero, ha110, ha111]
  have hS100 : expRowSums Real.exp (ebTen ℝ) (twoPointD ℝ) 0
      = Real.exp (Real.exp 0) + Real.exp (Real.exp (-(1 / 100))) := by
    unfold expRowSums
    rw [hrange2, List.map_cons, List.map_cons, List.map_nil, List.sum_cons,
      List.sum_cons, List.sum_nil, add_zero, hb100, hb101]
  have hS101 : expRowSums Real.exp (ebTen ℝ) (twoPointD ℝ) 1
      = Real.exp (Real.exp (-(1 / 100))) + Real.exp (Real.exp 0) := by
    unfold expRowSums
    rw [hrange2, List.map_cons, List.map_cons, List.map_nil, List.sum_cons,
      List.sum_cons, List.sum_nil, add_zero, hb110, hb111]
  have hEF : Real.exp (Real.exp 0) = Real.exp 1 := by rw [Real.exp_zero]
  have hW100 : (ebOne ℝ).threshold
      < weightedAdjMatrix Real.exp (ebOne ℝ) (twoPointD ℝ) 0 0 := by
    show (3 / 5 : ℝ) < _
    unfold weightedAdjMatrix
    rw [ha100, hS10, hEF, lt_div_iff₀ (by positivity)]
    linarith [three_exp_exp_neg_one_lt_two_exp_one]
  have hW101 : ¬ ((ebOne ℝ).threshold
      < weightedAdjMatrix Real.exp (ebOne ℝ) (twoPointD ℝ) 0 1) := by
    show ¬ ((3 / 5 : ℝ) < _)
    unfold weightedAdjMatrix
    rw [ha101, hS10, hEF, not_lt, div_le_iff₀ (by positivity)]
    linarith [exp_exp_neg_one_lt_exp_one, Real.exp_pos 1]
  have hW110 : ¬ ((ebOne ℝ).threshold
      < weightedAdjMatrix Real.exp (ebOne ℝ) (twoPointD ℝ) 1 0) := by
    show ¬ ((3 / 5 : ℝ) < _)
    unfold weightedAdjMatrix
    rw [ha110, hS11, hEF, not_lt, div_le_iff₀ (by positivity)]
    linarith [exp_exp_neg_one_lt_exp_one, Real.exp_pos 1]
  have hW111 : (ebOne ℝ).threshold
      < weightedAdjMatrix Real.exp (ebOne ℝ) (twoPointD ℝ) 1 1 := by
    show (3 / 5 : ℝ) < _
    unfold weightedAdjMatrix
    rw [ha111, hS11, hEF, lt_div_iff₀ (by positivity)]
    linarith [three_exp_exp_neg_one_lt_two_exp_one]
  have hW1000 : ¬ ((ebTen ℝ).threshold
      < weightedAdjMatrix Real.exp (ebTen ℝ) (twoPointD ℝ) 0 0) := by
    show ¬ ((3 / 5 : ℝ) < _)
    unfold weightedAdjMatrix
    rw [hb100, hS100, hEF, not_lt, div_le_iff₀ (by positivity)]
    linarith [two_exp_one_le_three_exp_exp_neg_hundredth]
  have hW1001 : ¬ ((ebTen ℝ).threshold
      < weightedAdjMatrix Real.exp (ebTen ℝ) (twoPointD ℝ) 0 1) := by
    show ¬ ((3 / 5 : ℝ) < _)
    unfold weightedAdjMatrix
    rw [hb101, hS100, hEF, not_lt, div_le_iff₀ (by positivity)]
    linarith [exp_exp_neg_hundredth_lt_exp_one, Real.exp_pos 1]
  have hW1010 : ¬ ((ebTen ℝ).threshold
      < weightedAdjMatrix Real.exp (ebTen ℝ) (twoPointD ℝ) 1 0) := by
    show ¬ ((3 / 5 : ℝ) < _)
    unfold weightedAdjMatrix
    rw [hb110, hS101, hEF, not_lt, div_le_iff₀ (by positivity)]
    linarith [exp_exp_neg_hundredth_lt_exp_one, Real.exp_pos 1]
  have hW1011 : ¬ ((ebTen ℝ).threshold
      < weightedAdjMatrix Real.exp (ebTen ℝ) (twoPointD ℝ) 1 1) := by
    show ¬ ((3 / 5 : ℝ) < _)
    unfold weightedAdjMatrix
    rw [hb111, hS101, hEF, not_lt, div_le_iff₀ (by positivity)]
    linarith [two_exp_one_le_three_exp_exp_neg_hundredth]
  have hk100 : euclideanKeep Real.exp (ebOne ℝ) (twoPointD ℝ) (0, 0) = true := by
    show (decide ((ebOne ℝ).threshold
        < weightedAdjMatrix Real.exp (ebOne ℝ) (twoPointD ℝ) 0 0)
      && decide (bId (twoPointD ℝ) 0 = bId (twoPointD ℝ) 0)) = true
    rw [decide_eq_true hW100]
    rfl
  have hk101 : euclideanKeep Real.exp (ebOne ℝ) (twoPointD ℝ) (0, 1) = false := by
    show (decide ((ebOne ℝ).threshold
        < weightedAdjMatrix Real.exp (ebOne ℝ) (twoPointD ℝ) 0 1)
      && decide (bId (twoPointD ℝ) 0 = bId (twoPointD ℝ) 1)) = false
    rw [decide_eq_false hW101]
    rfl
  have hk110 : euclideanKeep Real.exp (ebOne ℝ) (twoPointD ℝ) (1, 0) = false := by
    show (decide ((ebOne ℝ).threshold
        < weightedAdjMatrix Real.exp (ebOne ℝ) (twoPointD ℝ) 1 0)
      && decide (bId (twoPointD ℝ) 1 = bId (twoPointD ℝ) 0)) = false
    rw [decide_eq_false hW110]
    rfl
  have hk111 : euclideanKeep Real.exp (ebOne ℝ) (twoPointD ℝ) (1, 1) = true := by
    show (decide ((ebOne ℝ).threshold
        < weightedAdjMatrix Real.exp (ebOne ℝ) (twoPointD ℝ) 1 1)
      && decide (bId (twoPointD ℝ) 1 = bId (twoPointD ℝ) 1)) = true
    rw [decide_eq_true hW111]
    rfl
  have hk1000 : euclideanKeep Real.exp (ebTen ℝ) (twoPointD ℝ) (0, 0) = false := by
    show (decide ((ebTen ℝ).threshold
        < weightedAdjMatrix Real.exp (ebTen ℝ) (twoPointD ℝ) 0 0)
      && decide (bId (twoPointD ℝ) 0 = bId (twoPointD ℝ) 0)) = false
    rw [decide_eq_false hW1000]
    rfl
  have hk1001 : euclideanKeep Real.exp (ebTen ℝ) (twoPointD ℝ) (0, 1) = false := by
    show (decide ((ebTen ℝ).threshold
        < weightedAdjMatrix Real.exp (ebTen ℝ) (twoPointD ℝ) 0 1)
      && decide (bId (twoPointD ℝ) 0 = bId (twoPointD ℝ) 1)) = false
    rw [decide_eq_false hW1001]
    rfl
  have hk1010 : euclideanKeep Real.exp (ebTen ℝ) (twoPointD ℝ) (1, 0) = false := by
    show (decide ((ebTen ℝ).threshold
        < weightedAdjMatrix Real.exp (ebTen ℝ) (twoPointD ℝ) 1 0)
      && decide (bId (twoPointD ℝ) 1 = bId (twoPointD ℝ) 0)) = false
    rw [decide_eq_false hW1010]
    rfl
  have hk1011 : euclideanKeep Real.exp (ebTen ℝ) (twoPointD ℝ) (1, 1) = false := by
    show (decide ((ebTen ℝ).threshold
        < weightedAdjMatrix Real.exp (ebTen ℝ) (twoPointD ℝ) 1 1)
      && decide (bId (twoPointD ℝ) 1 = bId (twoPointD ℝ) 1)) = false
    rw [decide_eq_false hW1011]
    rfl
  have hpairs : pairsRC (twoPointD ℝ).x.length = [(0, 0), (0, 1), (1, 0), (1, 1)] := by
    decide
  have hE1 : euclideanEdges Real.exp (ebOne ℝ) (twoPointD ℝ) = [(0, 0), (1, 1)] := by
    unfold euclideanEdges
    rw [hpairs, List.filter_cons, hk100, if_pos rfl, List.filter_cons, hk101,
      if_neg Bool.false_ne_true, List.filter_cons, hk110,
      if_neg Bool.false_ne_true, List.filter_cons, hk111, if_pos rfl,
      List.filter_nil]
  have hE10 : euclideanEdges Real.exp (ebTen ℝ) (twoPointD ℝ) = [] := by
    unfold euclideanEdges
    rw [hpairs, List.filter_cons, hk1000, if_neg Bool.false_ne_true,
      List.filter_cons, hk1001, if_neg Bool.false_ne_true, List.filter_cons,
      hk1010, if_neg Bool.false_ne_true, List.filter_cons, hk1011,
      if_neg Bool.false_ne_true, List.filter_nil]
  show (euclideanEdges Real.exp (ebTen ℝ) (twoPointD ℝ)).length
      < (euclideanEdges Real.exp (ebOne ℝ) (twoPointD ℝ)).length
  rw [hE10, hE1]
  norm_num

/-- C8 (amended): the surviving-edge count is not monotone in `sigma` in
general (see the counterexample), but with `threshold = 0` the produced edge
list does not depend on `sigma` at all — every same-batch pair survives,
because the normalised weights are strictly positive whenever `ex` is
positive (as `Real.exp` is).  In particular the count then never decreases. -/
theorem c8_amended_threshold_zero_sigma_independent {α : Type} [LinearOrderedField α]
    (ex : α → α) (hex : ∀ x, 0 < ex x) (sigma sigma2 : α) (columns : List Nat)
    (d : Data α) :
    ((EuclideanGraphBuilder.mk sigma 0 columns).forward ex d).data.edge_index
      = ((EuclideanGraphBuilder.mk sigma2 0 columns).forward ex d).data.edge_index := by
  have hkeep : ∀ sigma3 : α, ∀ p ∈ pairsRC d.x.length,
      euclideanKeep ex (⟨sigma3, 0, columns⟩ : EuclideanGraphBuilder α) d p
        = decide (bId d p.1 = bId d p.2) := by
    intro sigma3 p hp
    show (decide ((0 : α) < weightedAdjMatrix ex ⟨sigma3, 0, columns⟩ d p.1 p.2)
      && decide (bId d p.1 = bId d p.2)) = decide (bId d p.1 = bId d p.2)
    rw [decide_eq_true (weightedAdjMatrix_pos ex hex ⟨sigma3, 0, columns⟩ d p.1 p.2
      (lt_of_le_of_lt (Nat.zero_le _) (mem_pairsRC.mp hp).1))]
    rw [Bool.true_and]
  show some (euclideanEdges ex ⟨sigma, 0, columns⟩ d)
      = some (euclideanEdges ex ⟨sigma2, 0, columns⟩ d)
  unfold euclideanEdges
  rw [List.filter_congr (hkeep sigma), List.filter_congr (hkeep sigma2)]

/-- Witness for the amended C8: at threshold 0, sigma 1 and sigma 2 give the
same adjacency on two one-batch points. -/
theorem c8_amended_threshold_zero_sigma_independent_witness :
    ((EuclideanGraphBuilder.mk (1 : ℚ) 0 [0, 1, 2]).forward (fun _ => 1)
        sampleQ).data.edge_index
      = ((EuclideanGraphBuilder.mk (2 : ℚ) 0 [0, 1, 2]).forward (fun _ => 1)
        sampleQ).data.edge_index :=
  c8_amended_threshold_zero_sigma_independent (fun _ => 1) (fun _ => one_pos)
    1 2 [0, 1, 2] sampleQ

end GraphNet
